import Mathlib

/-!
Shallow embedding of the `AuthProvider` Express middleware wrapper
(src/unnamed/part_000, together with src/src/Constants.ts).

JavaScript-specific behaviour is modelled explicitly:
  * an object key that may be absent is an `Option`;
  * a JS runtime `TypeError` (property access / method call on
    `undefined` or `null`) or an uncaught exception of an `async`
    handler is the outcome `Outcome.threw`;
  * JS truthiness of claim values is `ClaimValue.truthy`;
  * external collaborators (MSAL client, token validator, Graph
    fetcher, base64/JSON decoding) are oracles passed in records of
    functions returning `Except`/`Option` results.
-/

/-- Constants.ts, `AppStages.SIGN_IN`. -/
def AppStages.SIGN_IN : String := "sign_in"

/-- Constants.ts, `AppStages.ACQUIRE_TOKEN`. -/
def AppStages.ACQUIRE_TOKEN : String := "acquire_token"

/-- Constants.ts, `AccessConstants.GROUPS`. -/
def AccessConstants.GROUPS : String := "groups"

/-- Constants.ts, `AccessConstants.ROLES`. -/
def AccessConstants.ROLES : String := "roles"

/-- Constants.ts, `AccessConstants.CLAIM_NAMES`. Note the source
constant is the string `"_claim_name"` (no trailing `s`). -/
def AccessConstants.CLAIM_NAMES : String := "_claim_name"

/-- Constants.ts, `AccessConstants.CLAIM_SOURCES`. -/
def AccessConstants.CLAIM_SOURCES : String := "_claim_sources"

/-- A value stored under a claim key in `idTokenClaims`. Only the
shapes the guarded code paths distinguish are represented: a string
array, some other (truthy) object, and `null`. An absent key is
`Option.none` at the lookup. -/
inductive ClaimValue where
  | strList : List String → ClaimValue
  | obj : ClaimValue
  | nullV : ClaimValue
deriving DecidableEq, Repr

/-- JS truthiness of a present claim value (arrays and objects are
truthy, `null` is falsy). -/
def ClaimValue.truthy : ClaimValue → Bool
  | .strList _ => true
  | .obj => true
  | .nullV => false

/-- A JS object used as a string-keyed map: an association list whose
keys are pairwise distinct (JS object keys are unique); `lookupKey`
is property access `o[k]`, `none` meaning `undefined`. -/
def lookupKey {α : Type} (m : List (String × α)) (k : String) : Option α :=
  (m.find? (fun p => p.1 = k)).map Prod.snd

/-- Types.ts `Resource`: a downstream API identified by its scopes,
with the access token acquired for it (if any). -/
structure Resource where
  scopes : List String
  accessToken : Option String
deriving DecidableEq, Repr

/-- Types.ts `AccessRule`: `methods` plus the optional `groups` /
`roles` keys (`none` = key absent from the rule object). -/
structure AccessRule where
  methods : List String
  groups : Option (List String)
  roles : Option (List String)
deriving DecidableEq, Repr

/-- The `authRoutes` part of `AppSettings`. -/
structure AuthRoutes where
  redirect : String
  error : String
  unauthorized : String
  postLogin : String
  postLogout : String
deriving DecidableEq, Repr

/-- `AppSettings`: the routes, the two resource configuration maps and
whether an `accessMatrix` is configured (`hasAccess` only tests its
truthiness). -/
structure AppSettings where
  authRoutes : AuthRoutes
  remoteResources : List (String × Resource)
  ownedResources : List (String × Resource)
  accessMatrix : Bool
deriving DecidableEq, Repr

/-- msal-node `AccountInfo` as used by the wrapper. -/
structure Account where
  homeAccountId : String
  environment : String
  tenantId : String
  username : String
  idTokenClaims : List (String × ClaimValue)
deriving DecidableEq, Repr

/-- The session's pending `AuthorizationCodeRequest`. -/
structure TokenRequest where
  authority : String
  scopes : List String
  redirectUri : String
  code : String
deriving DecidableEq, Repr

/-- The express session state the wrapper reads and writes. -/
structure Session where
  isAuthenticated : Bool
  account : Account
  nonce : String
  tokenRequest : TokenRequest
  remoteResources : List (String × Resource)
deriving DecidableEq, Repr

/-- How a middleware invocation terminates, from the caller's point of
view. `noResponse` means the handler returned without redirecting and
without calling `next` (the request is left unanswered); `threw` means
a JS exception escaped the handler (for an `async` handler, its
promise rejected). -/
inductive Outcome where
  | redirect : String → Outcome
  | nextCalled : Outcome
  | nextError : Outcome
  | overageInvoked : Outcome
  | noResponse : Outcome
  | threw : Outcome
deriving DecidableEq, Repr

/-- `AuthProvider.applyAccessRule(method, rule, creds, isGroups)`.
`some b` is a returned boolean; `none` is the `TypeError` raised when
the branch reads `rule.groups` (resp. `rule.roles`) and that key is
absent (`undefined.filter`). The method check runs first, so a rule
lacking the selected key still returns `false` for a method outside
`rule.methods`. -/
def applyAccessRule (method : String) (rule : AccessRule)
    (creds : List String) (isGroups : Bool) : Option Bool :=
  if rule.methods.contains method then
    if isGroups then
      match rule.groups with
      | none => none
      | some gs =>
        if (gs.filter (fun elem => creds.contains elem)).length < 1 then
          some false
        else
          some true
    else
      match rule.roles with
      | none => none
      | some rs =>
        if (rs.filter (fun elem => creds.contains elem)).length < 1 then
          some false
        else
          some true
  else
    some false

example : applyAccessRule "GET" ⟨["GET"], none, some ["admin"]⟩ ["admin"] false = some true := by decide
example : applyAccessRule "GET" ⟨["GET"], none, some ["admin"]⟩ ["user"] false = some false := by decide
example : applyAccessRule "POST" ⟨["GET"], none, some ["admin"]⟩ ["admin"] false = some false := by decide

/-- `hasAccess` (the guard returned by the `hasAccess` middleware
factory), up to the point where it either responds, calls `next()`, or
calls `this.handleOverage` (`Outcome.overageInvoked`; the overage
resolver itself is `handleOverage` below). `sess = none` models a
request without a session. The role-check branch is modelled exactly
as written, with `applyAccessRule` NOT negated. -/
def hasAccess (settings : AppSettings) (rule : AccessRule)
    (method : String) (sess : Option Session) : Outcome :=
  match sess with
  | none => Outcome.redirect settings.authRoutes.unauthorized
  | some s =>
    if settings.accessMatrix then
      let checkFor :=
        if rule.groups.isSome then AccessConstants.GROUPS else AccessConstants.ROLES
      if checkFor = AccessConstants.GROUPS then
        match lookupKey s.account.idTokenClaims AccessConstants.GROUPS with
        | none =>
          if ((lookupKey s.account.idTokenClaims AccessConstants.CLAIM_NAMES).map ClaimValue.truthy).getD false
              || ((lookupKey s.account.idTokenClaims AccessConstants.CLAIM_SOURCES).map ClaimValue.truthy).getD false then
            Outcome.overageInvoked
          else
            Outcome.redirect settings.authRoutes.unauthorized
        | some v =>
          match v with
          | ClaimValue.strList groups =>
            match applyAccessRule method rule groups true with
            | some true => Outcome.nextCalled
            | some false => Outcome.redirect settings.authRoutes.unauthorized
            | none => Outcome.threw
          | _ => Outcome.threw
      else
        match lookupKey s.account.idTokenClaims AccessConstants.ROLES with
        | none => Outcome.redirect settings.authRoutes.unauthorized
        | some v =>
          match v with
          | ClaimValue.strList roles =>
            match applyAccessRule method rule roles false with
            | some true => Outcome.redirect settings.authRoutes.unauthorized
            | some false => Outcome.nextCalled
            | none => Outcome.threw
          | _ => Outcome.threw
    else
      Outcome.redirect settings.authRoutes.unauthorized

/-- One entry of the Graph `memberOf` response's `value` array (only
`id` is read: `graphResponse["value"].map((v) => v.id)`). -/
structure Member where
  id : String
deriving DecidableEq, Repr

/-- The JSON returned by `FetchManager.callApiEndpoint` for the
`memberOf` call: the `@odata.nextLink` property (if present) and the
`value` array. -/
structure GraphResponse where
  odataNextLink : Option String
  value : List Member
deriving DecidableEq, Repr

/-- Oracles for the external calls `handleOverage` makes:
`acquireTokenSilent` yields the access token (or rejects);
`callApiEndpoint` takes that token (the URL is fixed) and yields the
first `memberOf` page (or rejects); `handlePagination` takes the token
and the continuation link and yields the flattened group id list (or
rejects). -/
structure OverageEnv where
  acquireTokenSilent : Except Unit String
  callApiEndpoint : String → Except Unit GraphResponse
  handlePagination : String → String → Except Unit (List String)

/-- JS object destructuring `const { _claim_names, _claim_sources,
...newIdTokenClaims } = idTokenClaims`: the rest object drops those
two keys (note: `_claim_names` WITH the trailing `s`, unlike
`AccessConstants.CLAIM_NAMES`). -/
def removeOverageClaims (claims : List (String × ClaimValue)) :
    List (String × ClaimValue) :=
  claims.filter (fun p => p.1 ≠ "_claim_names" && p.1 ≠ "_claim_sources")

/-- JS property assignment semantics for building
`{ ...newIdTokenClaims, groups: gs }`: an existing `groups` key is
overridden in place, otherwise the key is appended last. -/
def jsSetKey (claims : List (String × ClaimValue)) (k : String)
    (v : ClaimValue) : List (String × ClaimValue) :=
  if claims.any (fun p => p.1 = k) then
    claims.map (fun p => if p.1 = k then (k, v) else p)
  else
    claims ++ [(k, v)]

/-- Result of `handleOverage`: the terminal outcome and the account's
`idTokenClaims` after the call. -/
structure OverageResult where
  outcome : Outcome
  claims : List (String × ClaimValue)
deriving Repr

/-- `AuthProvider.handleOverage(req, res, next, rule)`. Every `catch`
block in the source only logs, so a failed silent acquisition, a
failed initial fetch, a failed pagination fetch, and a throwing
`applyAccessRule` all end in `Outcome.noResponse`; likewise the source
never calls `next()`, so even a passing access check ends in
`Outcome.noResponse`. Only a completed lookup whose access check
returns `false` sends a response (redirect to unauthorized). -/
def handleOverage (settings : AppSettings) (env : OverageEnv)
    (method : String) (rule : AccessRule)
    (claims0 : List (String × ClaimValue)) : OverageResult :=
  let newIdTokenClaims := removeOverageClaims claims0
  match env.acquireTokenSilent with
  | Except.error _ => { outcome := Outcome.noResponse, claims := claims0 }
  | Except.ok accessToken =>
    match env.callApiEndpoint accessToken with
    | Except.error _ => { outcome := Outcome.noResponse, claims := claims0 }
    | Except.ok graphResponse =>
      match graphResponse.odataNextLink with
      | some nextLink =>
        match env.handlePagination accessToken nextLink with
        | Except.error _ => { outcome := Outcome.noResponse, claims := claims0 }
        | Except.ok userGroups =>
          let claims1 := jsSetKey newIdTokenClaims "groups" (ClaimValue.strList userGroups)
          match applyAccessRule method rule userGroups true with
          | some true => { outcome := Outcome.noResponse, claims := claims1 }
          | some false => { outcome := Outcome.redirect settings.authRoutes.unauthorized, claims := claims1 }
          | none => { outcome := Outcome.noResponse, claims := claims1 }
      | none =>
        let ids := graphResponse.value.map Member.id
        let claims1 := jsSetKey newIdTokenClaims "groups" (ClaimValue.strList ids)
        match applyAccessRule method rule ids true with
        | some true => { outcome := Outcome.noResponse, claims := claims1 }
        | some false => { outcome := Outcome.redirect settings.authRoutes.unauthorized, claims := claims1 }
        | none => { outcome := Outcome.noResponse, claims := claims1 }

/-- JS object spread `{ ...a, ...b }` on string-keyed maps: keys of `a`
keep their position (values overridden by `b` where `b` also has the
key), then keys only in `b` follow in `b`'s order. -/
def jsMerge (a b : List (String × Resource)) : List (String × Resource) :=
  (a.map (fun p =>
    match (b.find? (fun q => q.1 = p.1)).map Prod.snd with
    | some v => (p.1, v)
    | none => p))
  ++ b.filter (fun q => !(a.any (fun p => p.1 = q.1)))

/-- JS `Array.prototype.findIndex`, with the running index made
explicit (`none` = the source's `-1`). -/
def findIdxFrom (p : Resource → Bool) : List Resource → Nat → Option Nat
  | [], _ => none
  | r :: rs, i => if p r then some i else findIdxFrom p rs (i + 1)

/-- The merged resource configuration
`{ ...appSettings.remoteResources, ...appSettings.ownedResources }`
that `getResourceNameFromScopes` searches. -/
def mergedResources (settings : AppSettings) : List (String × Resource) :=
  jsMerge settings.remoteResources settings.ownedResources

/-- `AuthProvider.getResourceNameFromScopes(scopes)`: `findIndex` over
`Object.values` of the merged configuration comparing
`JSON.stringify(resource.scopes)` with `JSON.stringify(scopes)`
(stringify equality of string arrays is list equality), then index
into `Object.keys`; a `-1` index yields `undefined` (`none`). -/
def getResourceNameFromScopes (settings : AppSettings)
    (scopes : List String) : Option String :=
  let merged := mergedResources settings
  match findIdxFrom (fun resource => resource.scopes == scopes) (merged.map Prod.snd) 0 with
  | some index => (merged.map Prod.fst)[index]?
  | none => none

/-- The decoded OAuth state envelope
`{ stage, path, nonce }` (base64-encoded JSON in the query). -/
structure StateEnvelope where
  stage : String
  path : String
  nonce : String
deriving DecidableEq, Repr

/-- A token response from `acquireTokenByCode`. -/
structure TokenResponse where
  idToken : String
  accessToken : String
  account : Account
deriving DecidableEq, Repr

/-- Oracles for `handleRedirect`'s collaborators. `decodeState` is
`JSON.parse(cryptoProvider.base64Decode(s))`, `none` meaning the parse
throws; `acquireTokenByCode` is the MSAL code exchange on the
session's token request; `validateIdToken` returns the validator's
boolean, `Except.error` meaning validation itself threw. -/
structure RedirectEnv where
  decodeState : String → Option StateEnvelope
  acquireTokenByCode : TokenRequest → Except Unit TokenResponse
  validateIdToken : String → Except Unit Bool

/-- Result of one `handleRedirect` invocation: terminal outcome, the
session afterwards, and whether `acquireTokenByCode` was invoked. -/
structure RedirectResult where
  outcome : Outcome
  session : Session
  exchangeCalled : Bool
deriving Repr

/-- JS `mapObj[k].accessToken = tok` on a `remoteResources` object:
`none` models the `TypeError` when the key is absent. -/
def setAccessToken (m : List (String × Resource)) (k : String)
    (tok : String) : Option (List (String × Resource)) :=
  match lookupKey m k with
  | none => none
  | some _ =>
    some (m.map (fun p => if p.1 = k then (p.1, { p.2 with accessToken := some tok }) else p))

/-- `AuthProvider.handleRedirect`. `queryState`/`queryCode` are the
`state` and `code` query parameters (`none` = absent; a present empty
string is falsy under `if (req.query.state)` and is handled like an
absent one). Branches mirror the source: missing/empty state and nonce
mismatch redirect to unauthorized; an undecodable state propagates the
`JSON.parse` exception (`threw`); `sign_in` and `acquire_token` stages
run the code exchange; any other stage redirects to the error route. -/
def handleRedirect (settings : AppSettings) (env : RedirectEnv)
    (queryState : Option String) (queryCode : String)
    (sess : Session) : RedirectResult :=
  match queryState with
  | none =>
    { outcome := Outcome.redirect settings.authRoutes.unauthorized,
      session := sess, exchangeCalled := false }
  | some s =>
    if s = "" then
      { outcome := Outcome.redirect settings.authRoutes.unauthorized,
        session := sess, exchangeCalled := false }
    else
      match env.decodeState s with
      | none => { outcome := Outcome.threw, session := sess, exchangeCalled := false }
      | some st =>
        if st.nonce = sess.nonce then
          if st.stage = AppStages.SIGN_IN then
            let sess1 := { sess with tokenRequest := { sess.tokenRequest with code := queryCode } }
            match env.acquireTokenByCode sess1.tokenRequest with
            | Except.error _ =>
              { outcome := Outcome.nextError, session := sess1, exchangeCalled := true }
            | Except.ok tokenResponse =>
              match env.validateIdToken tokenResponse.idToken with
              | Except.error _ =>
                { outcome := Outcome.nextError, session := sess1, exchangeCalled := true }
              | Except.ok true =>
                { outcome := Outcome.redirect settings.authRoutes.postLogin,
                  session := { sess1 with account := tokenResponse.account, isAuthenticated := true },
                  exchangeCalled := true }
              | Except.ok false =>
                { outcome := Outcome.redirect settings.authRoutes.unauthorized,
                  session := sess1, exchangeCalled := true }
          else if st.stage = AppStages.ACQUIRE_TOKEN then
            let resourceName := getResourceNameFromScopes settings sess.tokenRequest.scopes
            let sess1 := { sess with tokenRequest := { sess.tokenRequest with code := queryCode } }
            match env.acquireTokenByCode sess1.tokenRequest with
            | Except.error _ =>
              { outcome := Outcome.nextError, session := sess1, exchangeCalled := true }
            | Except.ok tokenResponse =>
              match setAccessToken sess1.remoteResources (resourceName.getD "undefined") tokenResponse.accessToken with
              | none => { outcome := Outcome.threw, session := sess1, exchangeCalled := true }
              | some rr =>
                { outcome := Outcome.redirect st.path,
                  session := { sess1 with remoteResources := rr }, exchangeCalled := true }
          else
            { outcome := Outcome.redirect settings.authRoutes.error,
              session := sess, exchangeCalled := false }
        else
          { outcome := Outcome.redirect settings.authRoutes.unauthorized,
            session := sess, exchangeCalled := false }

/-- `TokenOptions` as consumed by the token middlewares: the target
resource (its scopes drive the lookup). -/
structure TokenOptions where
  resource : Resource
deriving DecidableEq, Repr

/-- JS spread `{ ...appSettings.remoteResources[name], accessToken:
null }`: spreading `undefined` contributes nothing (modelled as empty
scopes), and `accessToken` is overridden to `null` either way. -/
def spreadWithNullToken : Option Resource → Resource
  | some r => { r with accessToken := none }
  | none => { scopes := [], accessToken := none }

/-- The session mutation the `getToken` middleware performs before any
acquisition attempt (lines 289-302): resolve the resource name from
`options.resource.scopes`, then assign `req.session.remoteResources`
to a fresh one-key object for that name whose entry copies the
configured resource with `accessToken: null`. (The preceding lazy
`= {}` initialisation is immediately overwritten by this assignment.)
A failed name resolution (`undefined`) is coerced to the computed key
`"undefined"`, as in JS. -/
def getTokenSessionUpdate (settings : AppSettings)
    (options : TokenOptions) (sess : Session) : Session :=
  let resourceName := getResourceNameFromScopes settings options.resource.scopes
  let key := resourceName.getD "undefined"
  { sess with remoteResources :=
      [(key, spreadWithNullToken (lookupKey settings.remoteResources key))] }

/-- `AuthProvider.isAuthorized`. The source computes
`req.headers.authorization.split(" ")[1]` BEFORE testing
`req.headers.authorization`, so an absent header raises a `TypeError`
(`threw`) and the `else` branch that would redirect is unreachable for
it; an empty-string header is falsy at the test and redirects.
`validate` is the oracle for
`tokenValidator.validateAccessToken(accessToken, req.route.path)`
(its first argument is `split(" ")[1]`, which is `none` when the
header has no second word). -/
def isAuthorized (settings : AppSettings)
    (validate : Option String → String → Bool)
    (authHeader : Option String) (routePath : String) : Outcome :=
  match authHeader with
  | none => Outcome.threw
  | some h =>
    let accessToken := (h.splitOn " ")[1]?
    if h = "" then
      Outcome.redirect settings.authRoutes.unauthorized
    else
      if validate accessToken routePath then
        Outcome.nextCalled
      else
        Outcome.redirect settings.authRoutes.unauthorized

/-! Concrete fixtures used by counterexamples and witnesses. -/

def sampleRoutes : AuthRoutes :=
  { redirect := "/redirect", error := "/error", unauthorized := "/unauthorized",
    postLogin := "/home", postLogout := "/" }

def sampleSettings : AppSettings :=
  { authRoutes := sampleRoutes, remoteResources := [], ownedResources := [],
    accessMatrix := true }

def emptyTokenRequest : TokenRequest :=
  { authority := "", scopes := [], redirectUri := "", code := "" }

def accountWithClaims (claims : List (String × ClaimValue)) : Account :=
  { homeAccountId := "h", environment := "login.windows.net", tenantId := "t",
    username := "user at example.com", idTokenClaims := claims }

def sessionWithClaims (claims : List (String × ClaimValue)) : Session :=
  { isAuthenticated := true, account := accountWithClaims claims, nonce := "nonce-1",
    tokenRequest := emptyTokenRequest, remoteResources := [] }

def roleRule : AccessRule :=
  { methods := ["GET"], groups := none, roles := some ["admin"] }

def groupRule : AccessRule :=
  { methods := ["GET"], groups := some ["g1"], roles := none }

/-- The `intersection.length < 1` test in `applyAccessRule`, read as
set intersection: it fails exactly when the credential list shares an
element with the selected rule set. -/
theorem intersection_nonempty_iff (sel creds : List String) :
    ¬ (sel.filter (fun elem => creds.contains elem)).length < 1 ↔
      ∃ x ∈ sel, x ∈ creds := by
  rw [Nat.lt_one_iff, List.length_eq_zero, List.filter_eq_nil_iff]
  push_neg
  constructor
  · rintro ⟨x, hx, hb⟩
    exact ⟨x, hx, List.elem_iff.mp (by simpa using hb)⟩
  · rintro ⟨x, hx, hb⟩
    exact ⟨x, hx, by simpa using List.elem_iff.mpr hb⟩

/-- C4: for every access rule, method, credential list and both values
of the `isGroups` flag (given that the selected `groups`/`roles` key is
present on the rule, which is what the sentence's reference to
`rule.groups`/`rule.roles` presupposes and what `hasAccess`
guarantees), `applyAccessRule` returns `true` iff the method is in
`rule.methods` and the credentials intersect the selected set; a
single common element suffices. -/
theorem applyAccessRule_allow_iff (method : String) (rule : AccessRule)
    (creds : List String) (isGroups : Bool) (sel : List String)
    (hsel : (if isGroups then rule.groups else rule.roles) = some sel) :
    applyAccessRule method rule creds isGroups = some true ↔
      (method ∈ rule.methods ∧ ∃ x ∈ sel, x ∈ creds) := by
  unfold applyAccessRule
  cases isGroups with
  | false =>
    simp only [Bool.false_eq_true, if_false] at hsel
    rw [hsel]
    by_cases hm : method ∈ rule.methods
    · have hc : rule.methods.contains method = true := List.elem_iff.mpr hm
      simp only [hc, if_true, Bool.false_eq_true, if_false, hm, true_and]
      constructor
      · intro h
        by_cases hlt : (sel.filter (fun elem => creds.contains elem)).length < 1
        · rw [if_pos hlt] at h
          exact absurd (Option.some.inj h) (by decide)
        · exact (intersection_nonempty_iff sel creds).mp hlt
      · intro h
        rw [if_neg ((intersection_nonempty_iff sel creds).mpr h)]
    · have hc : rule.methods.contains method = false := by
        simpa using fun h => hm (List.elem_iff.mp h)
      simp [hc, hm]
  | true =>
    simp only [if_true] at hsel
    rw [hsel]
    by_cases hm : method ∈ rule.methods
    · have hc : rule.methods.contains method = true := List.elem_iff.mpr hm
      simp only [hc, if_true, hm, true_and]
      constructor
      · intro h
        by_cases hlt : (sel.filter (fun elem => creds.contains elem)).length < 1
        · rw [if_pos hlt] at h
          exact absurd (Option.some.inj h) (by decide)
        · exact (intersection_nonempty_iff sel creds).mp hlt
      · intro h
        rw [if_neg ((intersection_nonempty_iff sel creds).mpr h)]
    · have hc : rule.methods.contains method = false := by
        simpa using fun h => hm (List.elem_iff.mp h)
      simp [hc, hm]

/-- Witness for C4 at a concrete input: the rule admits GET for role
`admin`; a principal holding `admin` is allowed. -/
theorem applyAccessRule_allow_iff_witness :
    applyAccessRule "GET" roleRule ["admin", "user"] false = some true := by
  have h := applyAccessRule_allow_iff "GET" roleRule ["admin", "user"] false ["admin"] (by decide)
  exact h.mpr (by decide)

/-- C1: the role-check branch of `hasAccess` is inverted. At a GET
request against a roles rule requiring `admin`, a session whose roles
claim holds `admin` (evaluator allows) is redirected to the
unauthorized route, while a session whose roles claim holds only
`user` (evaluator denies) gets `next()` called — the exact opposite of
the specified allow/deny behaviour (and of the group branch, which
negates the evaluator). -/
theorem hasAccess_roles_branch_inverted :
    applyAccessRule "GET" roleRule ["admin"] false = some true ∧
    hasAccess sampleSettings roleRule "GET"
        (some (sessionWithClaims [("roles", ClaimValue.strList ["admin"])])) =
      Outcome.redirect sampleSettings.authRoutes.unauthorized ∧
    applyAccessRule "GET" roleRule ["user"] false = some false ∧
    hasAccess sampleSettings roleRule "GET"
        (some (sessionWithClaims [("roles", ClaimValue.strList ["user"])])) =
      Outcome.nextCalled := by
  decide

/-- C6: the overage trigger tests the key `"_claim_name"` (the
misspelt `AccessConstants.CLAIM_NAMES`), not `"_claim_names"`. A
session whose claims carry `_claim_names` (the key named by the claim,
by the spec, and by `handleOverage`'s own destructuring) but no
`groups` is redirected to the unauthorized route instead of entering
overage resolution; the overage path is reachable only through the
misspelt key (or `_claim_sources`). -/
theorem hasAccess_overage_key_misspelt :
    hasAccess sampleSettings groupRule "GET"
        (some (sessionWithClaims [("_claim_names", ClaimValue.obj)])) =
      Outcome.redirect sampleSettings.authRoutes.unauthorized ∧
    hasAccess sampleSettings groupRule "GET"
        (some (sessionWithClaims [("_claim_name", ClaimValue.obj)])) =
      Outcome.overageInvoked ∧
    hasAccess sampleSettings groupRule "GET"
        (some (sessionWithClaims [("_claim_sources", ClaimValue.obj)])) =
      Outcome.overageInvoked := by
  decide

/-- C2: whenever the state parameter is present (and truthy) and
decodes to an envelope whose nonce differs from the session's nonce,
`handleRedirect` redirects to the unauthorized route and never calls
`acquireTokenByCode`. -/
theorem handleRedirect_nonce_mismatch (settings : AppSettings)
    (env : RedirectEnv) (s queryCode : String) (sess : Session)
    (st : StateEnvelope) (hne : s ≠ "")
    (hdec : env.decodeState s = some st)
    (hnonce : st.nonce ≠ sess.nonce) :
    (handleRedirect settings env (some s) queryCode sess).outcome =
        Outcome.redirect settings.authRoutes.unauthorized ∧
    (handleRedirect settings env (some s) queryCode sess).exchangeCalled = false := by
  unfold handleRedirect
  simp [hne, hdec, hnonce]

/-- The envelope, environment and session used to witness the
nonce-mismatch behaviour on concrete data. -/
def mismatchEnvelope : StateEnvelope :=
  { stage := "sign_in", path := "/protected", nonce := "forged-nonce" }

def mismatchEnv : RedirectEnv :=
  { decodeState := fun _ => some mismatchEnvelope,
    acquireTokenByCode := fun _ => Except.error (),
    validateIdToken := fun _ => Except.ok true }

def baseSession : Session := sessionWithClaims []

/-- Witness for C2 at a concrete forged envelope. -/
theorem handleRedirect_nonce_mismatch_witness :
    (handleRedirect sampleSettings mismatchEnv (some "Zm9yZ2Vk") "code-1" baseSession).outcome =
        Outcome.redirect sampleSettings.authRoutes.unauthorized ∧
    (handleRedirect sampleSettings mismatchEnv (some "Zm9yZ2Vk") "code-1" baseSession).exchangeCalled = false :=
  handleRedirect_nonce_mismatch sampleSettings mismatchEnv "Zm9yZ2Vk" "code-1"
    baseSession mismatchEnvelope (by decide) rfl (by decide)

/-- An environment in which every state string fails base64-JSON
decoding (`JSON.parse` throws). -/
def undecodableEnv : RedirectEnv :=
  { decodeState := fun _ => none,
    acquireTokenByCode := fun _ => Except.error (),
    validateIdToken := fun _ => Except.ok true }

/-- C3 counterexample: a present state value that cannot be decoded as
base64 JSON makes `handleRedirect` propagate the parse exception
(`threw`) instead of redirecting to the unauthorized route — so the
claim's "redirects and never throws" fails on the undecodable case. -/
theorem handleRedirect_undecodable_state_throws :
    (handleRedirect sampleSettings undecodableEnv (some "not-base64-json") "c" baseSession).outcome =
        Outcome.threw ∧
    Outcome.threw ≠ Outcome.redirect sampleSettings.authRoutes.unauthorized := by
  decide

/-- C3 amended: a missing state parameter (and a present-but-empty
one, which the truthiness test treats the same way) yields a redirect
to the unauthorized route without throwing; a non-empty state whose
base64-JSON decoding fails propagates the exception to the caller. -/
theorem handleRedirect_missing_state_fail_closed (settings : AppSettings)
    (env : RedirectEnv) (queryCode : String) (sess : Session) :
    (handleRedirect settings env none queryCode sess).outcome =
        Outcome.redirect settings.authRoutes.unauthorized ∧
    (handleRedirect settings env (some "") queryCode sess).outcome =
        Outcome.redirect settings.authRoutes.unauthorized ∧
    (∀ s, s ≠ "" → env.decodeState s = none →
      (handleRedirect settings env (some s) queryCode sess).outcome = Outcome.threw) := by
  refine ⟨rfl, rfl, ?_⟩
  intro s hs hdec
  unfold handleRedirect
  simp [hs, hdec]

/-- Witness for the amended C3 on concrete data. -/
theorem handleRedirect_missing_state_fail_closed_witness :
    (handleRedirect sampleSettings undecodableEnv none "c" baseSession).outcome =
        Outcome.redirect sampleSettings.authRoutes.unauthorized ∧
    (handleRedirect sampleSettings undecodableEnv (some "xyz") "c" baseSession).outcome =
        Outcome.threw :=
  ⟨(handleRedirect_missing_state_fail_closed sampleSettings undecodableEnv "c" baseSession).1,
   (handleRedirect_missing_state_fail_closed sampleSettings undecodableEnv "c" baseSession).2.2
     "xyz" (by decide) rfl⟩

/-- C7: on a SIGN_IN envelope with matching nonce, `handleRedirect`
attaches the query's code to the session's pending token request (in
every branch); if the code exchange succeeds and the ID token
validates, the account is replaced, `isAuthenticated` is set and the
response redirects to the post-login route; if validation returns
false, it redirects to the unauthorized route; if the exchange fails,
the error goes to `next(error)`. -/
theorem handleRedirect_sign_in_spec (settings : AppSettings)
    (env : RedirectEnv) (s queryCode : String) (sess : Session)
    (st : StateEnvelope) (hne : s ≠ "")
    (hdec : env.decodeState s = some st)
    (hnonce : st.nonce = sess.nonce) (hstage : st.stage = AppStages.SIGN_IN) :
    (handleRedirect settings env (some s) queryCode sess).session.tokenRequest.code = queryCode ∧
    (∀ tr, env.acquireTokenByCode { sess.tokenRequest with code := queryCode } = Except.ok tr →
      (env.validateIdToken tr.idToken = Except.ok true →
        (handleRedirect settings env (some s) queryCode sess).session.account = tr.account ∧
        (handleRedirect settings env (some s) queryCode sess).session.isAuthenticated = true ∧
        (handleRedirect settings env (some s) queryCode sess).outcome =
          Outcome.redirect settings.authRoutes.postLogin) ∧
      (env.validateIdToken tr.idToken = Except.ok false →
        (handleRedirect settings env (some s) queryCode sess).outcome =
          Outcome.redirect settings.authRoutes.unauthorized)) ∧
    (env.acquireTokenByCode { sess.tokenRequest with code := queryCode } = Except.error () →
      (handleRedirect settings env (some s) queryCode sess).outcome = Outcome.nextError) := by
  unfold handleRedirect
  simp only [hne, hdec, hnonce, hstage, if_true, ite_true, ne_eq, not_false_iff]
  refine ⟨?_, ?_, ?_⟩
  · cases hx : env.acquireTokenByCode { sess.tokenRequest with code := queryCode } with
    | error e => simp [hx]
    | ok tr =>
      cases hv : env.validateIdToken tr.idToken with
      | error e => simp [hx, hv]
      | ok b => cases b <;> simp [hx, hv]
  · intro tr hx
    constructor
    · intro hv
      simp [hx, hv]
    · intro hv
      simp [hx, hv]
  · intro hx
    simp [hx]

/-- Concrete SIGN_IN fixtures for the witness: a matching-nonce
envelope, a successful exchange and a validating ID token. -/
def signInEnvelope : StateEnvelope :=
  { stage := "sign_in", path := "/protected", nonce := "nonce-1" }

def signInTokenResponse : TokenResponse :=
  { idToken := "id-token-1", accessToken := "access-token-1",
    account := accountWithClaims [("roles", ClaimValue.strList ["admin"])] }

def signInEnv : RedirectEnv :=
  { decodeState := fun _ => some signInEnvelope,
    acquireTokenByCode := fun _ => Except.ok signInTokenResponse,
    validateIdToken := fun _ => Except.ok true }

/-- Witness for C7: the happy path on concrete data ends signed in at
the post-login route with the returned account installed. -/
theorem handleRedirect_sign_in_spec_witness :
    (handleRedirect sampleSettings signInEnv (some "c3RhdGU") "auth-code" baseSession).session.account =
        signInTokenResponse.account ∧
    (handleRedirect sampleSettings signInEnv (some "c3RhdGU") "auth-code" baseSession).session.isAuthenticated = true ∧
    (handleRedirect sampleSettings signInEnv (some "c3RhdGU") "auth-code" baseSession).outcome =
        Outcome.redirect sampleSettings.authRoutes.postLogin := by
  have h := handleRedirect_sign_in_spec sampleSettings signInEnv "c3RhdGU" "auth-code"
    baseSession signInEnvelope (by decide) rfl rfl rfl
  exact (h.2.1 signInTokenResponse rfl).1 rfl

/-- An overage environment whose silent acquisition rejects. -/
def failSilentEnv : OverageEnv :=
  { acquireTokenSilent := Except.error (),
    callApiEndpoint := fun _ => Except.error (),
    handlePagination := fun _ _ => Except.error () }

/-- C5 counterexample: when silent acquisition fails, `handleOverage`
only logs — it neither redirects to the unauthorized route nor calls
`next`, leaving the request unanswered; the claimed unauthorized
redirect does not happen. -/
theorem handleOverage_failure_not_redirected :
    (handleOverage sampleSettings failSilentEnv "GET" groupRule
        [("_claim_names", ClaimValue.obj)]).outcome = Outcome.noResponse ∧
    Outcome.noResponse ≠ Outcome.redirect sampleSettings.authRoutes.unauthorized := by
  decide

/-- C5 amended: a failure at any stage of overage resolution — silent
acquisition, the initial directory fetch, or the pagination fetch — is
swallowed after logging: `handleOverage` completes without redirecting
and without calling `next()` (outcome `noResponse`), so the failure is
not retried and never falls through to interactive acquisition, but no
unauthorized redirect is sent either. -/
theorem handleOverage_failure_no_response (settings : AppSettings)
    (env : OverageEnv) (method : String) (rule : AccessRule)
    (claims0 : List (String × ClaimValue)) :
    (env.acquireTokenSilent = Except.error () →
      (handleOverage settings env method rule claims0).outcome = Outcome.noResponse) ∧
    (∀ tok, env.acquireTokenSilent = Except.ok tok →
      env.callApiEndpoint tok = Except.error () →
      (handleOverage settings env method rule claims0).outcome = Outcome.noResponse) ∧
    (∀ tok gr nl, env.acquireTokenSilent = Except.ok tok →
      env.callApiEndpoint tok = Except.ok gr →
      gr.odataNextLink = some nl →
      env.handlePagination tok nl = Except.error () →
      (handleOverage settings env method rule claims0).outcome = Outcome.noResponse) := by
  refine ⟨?_, ?_, ?_⟩
  · intro h
    unfold handleOverage
    simp [h]
  · intro tok h1 h2
    unfold handleOverage
    simp [h1, h2]
  · intro tok gr nl h1 h2 h3 h4
    unfold handleOverage
    simp [h1, h2, h3, h4]

/-- Witness for the amended C5 at the concrete failing environment. -/
theorem handleOverage_failure_no_response_witness :
    (handleOverage sampleSettings failSilentEnv "GET" groupRule []).outcome =
        Outcome.noResponse :=
  (handleOverage_failure_no_response sampleSettings failSilentEnv "GET" groupRule []).1 rfl

/-- C9: `isAuthorized` dereferences the authorization header before
its own presence check, so a request without the header crashes with a
`TypeError` (the `else` branch that would redirect is unreachable)
instead of redirecting to the unauthorized route; when a header is
present, a failed validation redirects to unauthorized and a passing
one calls `next()`. -/
theorem isAuthorized_missing_header_throws :
    isAuthorized sampleSettings (fun _ _ => true) none "/protected" = Outcome.threw ∧
    Outcome.threw ≠ Outcome.redirect sampleSettings.authRoutes.unauthorized ∧
    isAuthorized sampleSettings (fun _ _ => false) (some "Bearer tok") "/protected" =
      Outcome.redirect sampleSettings.authRoutes.unauthorized ∧
    isAuthorized sampleSettings (fun _ _ => true) (some "Bearer tok") "/protected" =
      Outcome.nextCalled := by
  refine ⟨rfl, by decide, ?_, ?_⟩ <;> rfl

/-- Shifting the running index commutes with the search. -/
theorem findIdxFrom_succ (p : Resource → Bool) (l : List Resource) (i : Nat) :
    findIdxFrom p l (i + 1) = (findIdxFrom p l i).map (· + 1) := by
  induction l generalizing i with
  | nil => rfl
  | cons r rs ih =>
    by_cases h : p r = true
    · simp [findIdxFrom, h]
    · simp [findIdxFrom, h, ih]

/-- Specification-side reading of the lookup: scan the (name,
resource) pairs in order for an exact scope-list match. -/
def lookupByScopes : List (String × Resource) → List String → Option String
  | [], _ => none
  | p :: ps, scopes =>
    if p.2.scopes == scopes then some p.1 else lookupByScopes ps scopes

/-- The source's `Object.values(...).findIndex` followed by
`Object.keys(...)[index]` agrees with the direct pair scan (the two
arrays come from the same object, in the same order). -/
theorem keysOfFindIdx_eq_lookupByScopes (l : List (String × Resource))
    (scopes : List String) :
    (match findIdxFrom (fun resource => resource.scopes == scopes) (l.map Prod.snd) 0 with
     | some index => (l.map Prod.fst)[index]?
     | none => none) = lookupByScopes l scopes := by
  induction l with
  | nil => rfl
  | cons p ps ih =>
    by_cases h : (p.2.scopes == scopes) = true
    · simp [findIdxFrom, h, lookupByScopes]
    · simp only [List.map_cons, findIdxFrom, h, if_false]
      rw [findIdxFrom_succ]
      cases hfi : findIdxFrom (fun resource => resource.scopes == scopes) (ps.map Prod.snd) 0 with
      | none =>
        rw [hfi] at ih
        simp [lookupByScopes, h, ← ih]
      | some i =>
        rw [hfi] at ih
        simp only [Option.map_some']
        simp [lookupByScopes, h, ← ih]

/-- `getResourceNameFromScopes` as the direct pair scan. -/
theorem getResourceNameFromScopes_eq_lookup (settings : AppSettings)
    (scopes : List String) :
    getResourceNameFromScopes settings scopes =
      lookupByScopes (mergedResources settings) scopes := by
  unfold getResourceNameFromScopes
  exact keysOfFindIdx_eq_lookupByScopes (mergedResources settings) scopes

/-- A configured pair is found under its own scopes when scope lists
are pairwise distinct. -/
theorem lookupByScopes_mem (l : List (String × Resource)) (name : String)
    (R : Resource) (hmem : (name, R) ∈ l)
    (hdist : l.Pairwise (fun p q => p.2.scopes ≠ q.2.scopes)) :
    lookupByScopes l R.scopes = some name := by
  induction l with
  | nil => cases hmem
  | cons p ps ih =>
    rcases List.mem_cons.mp hmem with heq | htail
    · rw [← heq]
      simp [lookupByScopes]
    · have hne : p.2.scopes ≠ R.scopes :=
        (List.pairwise_cons.mp hdist).1 (name, R) htail
      have hb : (p.2.scopes == R.scopes) = false := beq_eq_false_iff_ne.mpr hne
      simp only [lookupByScopes, hb, if_false]
      exact ih htail (List.pairwise_cons.mp hdist).2

/-- A scope list matching no configured pair is not found. -/
theorem lookupByScopes_not_found (l : List (String × Resource))
    (scopes : List String) (h : ∀ p ∈ l, p.2.scopes ≠ scopes) :
    lookupByScopes l scopes = none := by
  induction l with
  | nil => rfl
  | cons p ps ih =>
    have hb : (p.2.scopes == scopes) = false :=
      beq_eq_false_iff_ne.mpr (h p (List.mem_cons_self p ps))
    simp only [lookupByScopes, hb, if_false]
    exact ih (fun q hq => h q (List.mem_cons_of_mem p hq))

/-- C8: under pairwise-distinct scope sequences across the merged
resource configuration, resolution is a left inverse of configuration
(each configured resource's scopes resolve to its own name) and is
never wrong on unconfigured scope lists (they resolve to `none`). -/
theorem getResourceNameFromScopes_inverse (settings : AppSettings)
    (hdist : (mergedResources settings).Pairwise (fun p q => p.2.scopes ≠ q.2.scopes)) :
    (∀ p ∈ mergedResources settings,
      getResourceNameFromScopes settings p.2.scopes = some p.1) ∧
    (∀ scopes, (∀ p ∈ mergedResources settings, p.2.scopes ≠ scopes) →
      getResourceNameFromScopes settings scopes = none) := by
  constructor
  · intro p hp
    rw [getResourceNameFromScopes_eq_lookup]
    exact lookupByScopes_mem (mergedResources settings) p.1 p.2 (by simpa using hp) hdist
  · intro scopes hni
    rw [getResourceNameFromScopes_eq_lookup]
    exact lookupByScopes_not_found (mergedResources settings) scopes hni

/-- A concrete two-resource configuration. -/
def graphResource : Resource := { scopes := ["User.Read"], accessToken := none }

def armResource : Resource := { scopes := ["arm-default"], accessToken := none }

def resourceSettings : AppSettings :=
  { authRoutes := sampleRoutes,
    remoteResources := [("graphAPI", graphResource)],
    ownedResources := [("armAPI", armResource)],
    accessMatrix := true }

/-- Witness for C8 on the concrete configuration: a configured scope
list resolves to its own resource's name and an unconfigured one
resolves to `none`. -/
theorem getResourceNameFromScopes_inverse_witness :
    getResourceNameFromScopes resourceSettings ["User.Read"] = some "graphAPI" ∧
    getResourceNameFromScopes resourceSettings ["Mail.Read"] = none := by
  have h := getResourceNameFromScopes_inverse resourceSettings (by decide)
  exact ⟨h.1 ("graphAPI", graphResource) (by decide), h.2 ["Mail.Read"] (by decide)⟩

/-- The rebuilt entry always carries a null access token. -/
theorem spreadWithNullToken_accessToken (o : Option Resource) :
    (spreadWithNullToken o).accessToken = none := by
  cases o <;> rfl

/-- C10: when the requested resource's scopes resolve to the name `R`,
`getToken`'s session update replaces `remoteResources` wholesale with
a single-entry map for `R` whose access token is null: the lookup
under `R` yields that reset entry and the lookup under every other
name yields nothing, whatever was stored before. -/
theorem getToken_replaces_remoteResources (settings : AppSettings)
    (options : TokenOptions) (sess : Session) (R : String)
    (hres : getResourceNameFromScopes settings options.resource.scopes = some R) :
    ((getTokenSessionUpdate settings options sess).remoteResources.map Prod.fst = [R]) ∧
    (∃ entry,
      lookupKey (getTokenSessionUpdate settings options sess).remoteResources R = some entry ∧
      entry.accessToken = none) ∧
    (∀ name, name ≠ R →
      lookupKey (getTokenSessionUpdate settings options sess).remoteResources name = none) := by
  unfold getTokenSessionUpdate
  rw [hres]
  refine ⟨rfl,
    ⟨spreadWithNullToken (lookupKey settings.remoteResources ((some R).getD "undefined")), ?_, spreadWithNullToken_accessToken _⟩, ?_⟩
  · simp [lookupKey]
  · intro name hname
    simp [lookupKey, List.find?, hname, Ne.symm hname]

def tokenOpts : TokenOptions := { resource := graphResource }

def sessWithOldTokens : Session :=
  { baseSession with remoteResources :=
      [("armAPI", { scopes := ["arm-default"], accessToken := some "old-token" })] }

/-- Witness for C10 on concrete data: after the update for `graphAPI`,
the previously stored `armAPI` entry (with its acquired token) is gone
and the fresh `graphAPI` entry carries a null token. -/
theorem getToken_replaces_remoteResources_witness :
    lookupKey (getTokenSessionUpdate resourceSettings tokenOpts sessWithOldTokens).remoteResources "armAPI" = none ∧
    (∃ entry,
      lookupKey (getTokenSessionUpdate resourceSettings tokenOpts sessWithOldTokens).remoteResources "graphAPI" = some entry ∧
      entry.accessToken = none) := by
  have h := getToken_replaces_remoteResources resourceSettings tokenOpts
    sessWithOldTokens "graphAPI" (by decide)
  exact ⟨h.2.2 "armAPI" (by decide), h.2.1⟩
